import Mathlib

/-!
Verification development for the SBF stream engine of the post-processing SDK.

The repository ships the public headers of the engine (ssnsbfstream.h,
ssnerror.h, snmpclient.h, snmptypes.h, ...).  The `SSNERROR_*` macros are
given in full in ssnerror.h and are embedded here directly.  The stream and
SNMP operations are only declared in the headers, so their behaviour is
modelled from the specification text and the header documentation.

Times are modelled as rationals (GNSS seconds); machine 32-bit arithmetic is
modelled on `Nat` with explicit reduction modulo 2^32.
-/

/-! ### ErrorCode packing (ssnerror.h macros, embedded from the source) -/

/-- Reduction modulo 2^32, the `(uint32_t)` cast of the C macros. -/
def u32 (n : Nat) : Nat := n % 4294967296

/-- Embedded from `SSNERROR_CREATE(sev, mod, submod, gen, code)` in ssnerror.h:
`((uint32_t)(sev) << 31) | ((uint32_t)(mod) << 16) | ((uint32_t)(submod) << 8)
 | ((uint32_t)(gen) << 7) | ((uint32_t)(code))`. -/
def SSNERROR_CREATE (sev md submod gen code : Nat) : Nat :=
  u32 (u32 (u32 sev <<< 31) ||| u32 (u32 md <<< 16) ||| u32 (u32 submod <<< 8) |||
       u32 (u32 gen <<< 7) ||| u32 code)

/-- Embedded from `SSNERROR_GETCODE`: `(uint32_t)(e) & 0x0000007F`. -/
def SSNERROR_GETCODE (e : Nat) : Nat := u32 e &&& 0x0000007F

/-- Embedded from `SSNERROR_GETSUBMODULE`: `((uint32_t)(e) >> 8) & 0x000000FF`. -/
def SSNERROR_GETSUBMODULE (e : Nat) : Nat := (u32 e >>> 8) &&& 0x000000FF

/-- Embedded from `SSNERROR_GETMODULE`: `((uint32_t)(e) >> 16) & 0x00007fff`. -/
def SSNERROR_GETMODULE (e : Nat) : Nat := (u32 e >>> 16) &&& 0x00007fff

/-- Embedded from `SSNERROR_GETSEVERITY`: `((uint32_t)(e) >> 31) & 0x00000001`. -/
def SSNERROR_GETSEVERITY (e : Nat) : Nat := (u32 e >>> 31) &&& 0x00000001

/-- Embedded from `SSNERROR_GETTYPE`: `((uint32_t)(e) >> 7) & 0x00000001`. -/
def SSNERROR_GETTYPE (e : Nat) : Nat := (u32 e >>> 7) &&& 0x00000001

/-- Embedded from `SSNERROR_GETSTATUS`: `((uint32_t)(e) < 0x80000000) ? 1 : 0`. -/
def SSNERROR_GETSTATUS (e : Nat) : Nat := if u32 e < 0x80000000 then 1 else 0

/-- Embedded from `SSNERROR_ISWARNING`:
`(((uint32_t)(e) < 0x80000000) && ((uint32_t)(e) != 0)) ? 1 : 0`. -/
def SSNERROR_ISWARNING (e : Nat) : Nat :=
  if u32 e < 0x80000000 ∧ u32 e ≠ 0 then 1 else 0

/-! ### Data model of the SBF stream engine (modelled from the spec) -/

/-- Modelled from the spec: one SBF block. `time` is the derived GNSS
timestamp (`none` = "not valid"), `tow`/`wnc` are the raw time-of-week and
week-number fields, `isNav` marks navigation-type blocks, whose validity
interval is `[applStart, applEnd]`; `category` is the block category used by
the merge option masks. -/
structure SBFBlock where
  sbfId : Nat
  time : Option ℚ
  tow : Option Nat
  wnc : Option Nat
  isNav : Bool
  applStart : ℚ
  applEnd : ℚ
  category : Nat
  payload : List Nat
deriving DecidableEq

/-- Modelled from the spec: a stream is an ordered block sequence plus a
cursor position. -/
structure SBFStream where
  blocks : List SBFBlock
  cursor : Nat
deriving DecidableEq

/-- Modelled from the spec: crop options, mirroring
`ssn_sbfstream_cropoption_t` (DISCARDNAVAPP = 0x2, DISCARDINVALID = 0x4). -/
structure CropOptions where
  discardNavApp : Bool
  discardInvalid : Bool
deriving DecidableEq

/-- The default crop options (`SSNSBFSTREAM_CROPOPTION_DEFAULT`). -/
def CropOptions.default : CropOptions := ⟨false, false⟩

/-! ### Time-range engine (modelled from the spec)

The crop/filter engine is generic in the key used to compare a block against
the requested bounds: `cropGNSS` keys on the derived GNSS timestamp, the
week-ambiguous branch of `cropTOW` keys on the raw TOW field. -/

/-- Does the key of `b` exist and reach `bound`? Blocks without a valid key
never match a bound. -/
def keyGE (key : SBFBlock → Option ℚ) (bound : ℚ) (b : SBFBlock) : Bool :=
  match key b with
  | some t => decide (bound ≤ t)
  | none => false

/-- Does `b` open the cropped window?  A "do-not-use" start bound (`none`,
the F64_NOTVALID sentinel) makes cropping start from the beginning of the
stream. -/
def matchesStart (key : SBFBlock → Option ℚ) (gstart : Option ℚ) (b : SBFBlock) : Bool :=
  match gstart with
  | none => true
  | some s0 => keyGE key s0 b

/-- Does `b` close the cropped window?  A "do-not-use" end bound (`none`)
makes cropping run to the end of the stream. -/
def matchesEnd (key : SBFBlock → Option ℚ) (gend : Option ℚ) (b : SBFBlock) : Bool :=
  match gend with
  | none => false
  | some e0 => keyGE key e0 b

/-- Modelled from the spec: a navigation block outside the cropped section is
retained whenever its applicability window overlaps the query range, unless
the discard-applicability option is set. -/
def navKeep (gstart gend : Option ℚ) (o : CropOptions) (b : SBFBlock) : Bool :=
  b.isNav && !o.discardNavApp &&
  (match gstart with
   | none => true
   | some s0 => decide (s0 ≤ b.applEnd)) &&
  (match gend with
   | none => true
   | some e0 => decide (b.applStart ≤ e0))

/-- Keep rule for a block inside the cropped window: kept, except that the
discard-invalid option drops blocks without a valid key (navigation
applicability can still retain such a block). -/
def windowKeep (key : SBFBlock → Option ℚ) (gstart gend : Option ℚ)
    (o : CropOptions) (b : SBFBlock) : Bool :=
  (!o.discardInvalid || (key b).isSome) || navKeep gstart gend o b

/-- Phase of the single-pass crop scan: before the window has opened, inside
the window, or after the window has closed. -/
inductive CropPhase where
  | before
  | inside
  | after
deriving DecidableEq

/-- Modelled from the spec (implementation of `SSNSBFStream_cropGNSS` is not
shipped in the repository): single-pass scan keeping the first interval from
the first block matching the start bound through the next block matching the
end bound, and outside that window only navigation blocks whose
applicability overlaps the query range. -/
def cropScan (key : SBFBlock → Option ℚ) (gstart gend : Option ℚ)
    (o : CropOptions) : CropPhase → List SBFBlock → List SBFBlock
  | _, [] => []
  | .before, b :: bs =>
    if matchesStart key gstart b then
      (if windowKeep key gstart gend o b then [b] else []) ++
        cropScan key gstart gend o
          (if matchesEnd key gend b then .after else .inside) bs
    else
      (if navKeep gstart gend o b then [b] else []) ++
        cropScan key gstart gend o .before bs
  | .inside, b :: bs =>
    (if windowKeep key gstart gend o b then [b] else []) ++
      cropScan key gstart gend o
        (if matchesEnd key gend b then .after else .inside) bs
  | .after, b :: bs =>
    (if navKeep gstart gend o b then [b] else []) ++
      cropScan key gstart gend o .after bs

/-- Index of the first block matching the start bound (length if none). -/
def cropStartIdx (key : SBFBlock → Option ℚ) (blocks : List SBFBlock)
    (gstart : Option ℚ) : Nat :=
  blocks.findIdx (matchesStart key gstart)

/-- Number of blocks of the kept window: from the first block matching the
start bound through the next block matching the end bound (inclusive); runs
to the end of the stream when no block matches the end bound. -/
def cropWindowLen (key : SBFBlock → Option ℚ) (blocks : List SBFBlock)
    (gstart gend : Option ℚ) : Nat :=
  (blocks.drop (cropStartIdx key blocks gstart)).findIdx (matchesEnd key gend) + 1

/-- Declarative statement of the crop semantics, following the words of the
spec: the result is exactly one contiguous window — from the first block
matching the start bound through the next block matching the end bound —
plus, outside it, only the navigation blocks kept by applicability. -/
def cropSpecList (key : SBFBlock → Option ℚ) (blocks : List SBFBlock)
    (gstart gend : Option ℚ) (o : CropOptions) : List SBFBlock :=
  let i := cropStartIdx key blocks gstart
  let w := cropWindowLen key blocks gstart gend
  (blocks.take i).filter (navKeep gstart gend o) ++
    ((blocks.drop i).take w).filter (windowKeep key gstart gend o) ++
    ((blocks.drop i).drop w).filter (navKeep gstart gend o)

/-- The GNSS-timestamp key used by `cropGNSS`/`filterGNSS`. -/
def gnssKey (b : SBFBlock) : Option ℚ := b.time

/-- The raw time-of-week key used by the week-ambiguous branch of
`cropTOW`/`filterTOW`. -/
def towKey (b : SBFBlock) : Option ℚ := b.tow.map (fun n => (n : ℚ))

/-- Modelled from the spec: `SSNSBFStream_cropGNSS` (implementation not
shipped).  Crops the stream between two GNSS timestamps, `none` standing for
the F64_NOTVALID "do-not-use" sentinels. -/
def cropGNSS (s : SBFStream) (gstart gend : Option ℚ) (o : CropOptions) : SBFStream :=
  ⟨cropScan gnssKey gstart gend o .before s.blocks, 0⟩

/-- Modelled from the spec: GNSS time computed from a TOW/week-number pair
(seconds into the week plus 604800 seconds per week). -/
def gnssTimeOf (tow wnc : Nat) : ℚ := 604800 * wnc + tow

/-- Modelled from the spec: `SSNSBFStream_cropTOW` (implementation not
shipped).  With valid week numbers the GNSS timestamps are computed and
`cropGNSS` is used; with the U16_NOTVALID sentinel (`none`) only the raw TOW
values are compared. -/
def cropTOW (s : SBFStream) (towstart : Nat) (wncstart : Option Nat)
    (towend : Nat) (wncend : Option Nat) (o : CropOptions) : SBFStream :=
  match wncstart, wncend with
  | some ws, some we =>
    cropGNSS s (some (gnssTimeOf towstart ws)) (some (gnssTimeOf towend we)) o
  | _, _ => ⟨cropScan towKey (some towstart) (some towend) o .before s.blocks, 0⟩

/-- Keep rule of the filter operation: a block is kept when its key lies in
the half-open interval `[gstart, gend)`; blocks without a valid key are kept
unless the discard-invalid option is set; navigation applicability applies
as for crop. -/
def filterKeep (key : SBFBlock → Option ℚ) (gstart gend : ℚ)
    (o : CropOptions) (b : SBFBlock) : Bool :=
  (match key b with
   | some t => decide (gstart ≤ t) && decide (t < gend)
   | none => !o.discardInvalid) || navKeep (some gstart) (some gend) o b

/-- Modelled from the spec: `SSNSBFStream_filterGNSS` (implementation not
shipped).  Keeps every block within the GNSS interval; recurring sections
all survive, unlike `cropGNSS`. -/
def filterGNSS (s : SBFStream) (gstart gend : ℚ) (o : CropOptions) : SBFStream :=
  ⟨s.blocks.filter (filterKeep gnssKey gstart gend o), 0⟩

/-- Modelled from the spec: `SSNSBFStream_filterTOW` (implementation not
shipped).  With valid week numbers the GNSS timestamps are computed and
`filterGNSS` is used; with the U16_NOTVALID sentinel (`none`) only the raw
TOW values are compared. -/
def filterTOW (s : SBFStream) (towstart : Nat) (wncstart : Option Nat)
    (towend : Nat) (wncend : Option Nat) (o : CropOptions) : SBFStream :=
  match wncstart, wncend with
  | some ws, some we =>
    filterGNSS s (gnssTimeOf towstart ws) (gnssTimeOf towend we) o
  | _, _ =>
    ⟨s.blocks.filter (filterKeep towKey (towstart : ℚ) (towend : ℚ) o), 0⟩

/-! ### Stream composition: insert and merge (modelled from the spec) -/

/-- Time key used for ordering blocks; a block without a valid timestamp
sorts below every timed block. -/
def timeKey (b : SBFBlock) : WithBot ℚ :=
  match b.time with
  | none => ⊥
  | some t => (t : WithBot ℚ)

/-- The time ordering relation on blocks. -/
def timeRel (a b : SBFBlock) : Prop := timeKey a ≤ timeKey b

instance : DecidableRel timeRel := fun a b =>
  inferInstanceAs (Decidable (timeKey a ≤ timeKey b))

instance : IsTrans SBFBlock timeRel :=
  ⟨fun _ _ _ h1 h2 => le_trans h1 h2⟩

/-- Boolean comparison used by the two-pointer merge. -/
def timeLE (a b : SBFBlock) : Bool := decide (timeKey a ≤ timeKey b)

/-- Boolean check that every adjacent pair of blocks is ordered by GNSS
time. -/
def timeOrderedB : List SBFBlock → Bool
  | [] => true
  | [_] => true
  | a :: b :: rest => timeLE a b && timeOrderedB (b :: rest)

/-- A block list is time-ordered when every adjacent pair is ordered by
GNSS time. -/
def TimeOrdered (l : List SBFBlock) : Prop := timeOrderedB l = true

instance (l : List SBFBlock) : Decidable (TimeOrdered l) :=
  inferInstanceAs (Decidable (timeOrderedB l = true))

/-- Is `b` strictly later than time `t`?  Used by `insertBlock`; blocks
without a valid timestamp are never "larger". -/
def laterThan (t : ℚ) (b : SBFBlock) : Bool :=
  match b.time with
  | some u => decide (t < u)
  | none => false

/-- Modelled from the spec: `SSNSBFStream_insertBlock` (implementation not
shipped).  The block is inserted immediately before the first block whose
GNSS time is strictly larger than the given time. -/
def insertBlock (s : SBFStream) (t : ℚ) (b : SBFBlock) : SBFStream :=
  let p := s.blocks.findIdx (laterThan t)
  ⟨s.blocks.take p ++ b :: s.blocks.drop p, s.cursor⟩

/-- Modelled from the spec: a merge option mask, mirroring
`ssn_sbfstream_mergeoption_t`: the ALL bit, or a set of category bits. -/
structure MergeMask where
  all : Bool
  cats : List Nat
deriving DecidableEq

/-- The `SSNSBFSTREAM_MERGEOPTION_ALL` mask. -/
def MergeMask.allBlocks : MergeMask := ⟨true, []⟩

/-- Does the mask select block `b`? -/
def selects (m : MergeMask) (b : SBFBlock) : Bool :=
  m.all || m.cats.contains b.category

/-- One step of the two-pointer merge: place `x` into `ys` given that
`f` merges the remaining left-hand blocks into any list. -/
def mergeOne (x : SBFBlock) (f : List SBFBlock → List SBFBlock) :
    List SBFBlock → List SBFBlock
  | [] => x :: f []
  | y :: ys => if timeLE x y then x :: f (y :: ys) else y :: mergeOne x f ys

/-- Modelled from the spec: the two-pointer time merge of two block lists —
the output is the interleaving of both inputs by ascending time, the
left-hand stream winning ties. -/
def mergeBlocks : List SBFBlock → List SBFBlock → List SBFBlock
  | [], ys => ys
  | x :: xs, ys => mergeOne x (mergeBlocks xs) ys

/-- Modelled from the spec: `SSNSBFStream_merge` (implementation not
shipped).  Both inputs are rewound first, the masks select the blocks taken
from each input, the output interleaves the selections by ascending time and
is rewound afterwards.  Returns (rewound first input, rewound second input,
destination). -/
def merge (s1 s2 : SBFStream) (m1 m2 : MergeMask) :
    SBFStream × SBFStream × SBFStream :=
  (⟨s1.blocks, 0⟩, ⟨s2.blocks, 0⟩,
   ⟨mergeBlocks (s1.blocks.filter (selects m1)) (s2.blocks.filter (selects m2)), 0⟩)

/-- Modelled from the spec: the cancellable merge loop.  The caller-owned
escape flag (registered with `SSNSBFStream_setEscapePointer`) is polled once
per written block; `polls` is the number of polls that observe the flag still
unset, so the loop stops at a block boundary after writing `polls` blocks. -/
def mergeBlocksFuel : Nat → List SBFBlock → List SBFBlock → List SBFBlock
  | 0, _, _ => []
  | n + 1, [], ys => ys.take (n + 1)
  | n + 1, x :: xs, [] => (x :: xs).take (n + 1)
  | n + 1, x :: xs, y :: ys =>
    if timeLE x y then x :: mergeBlocksFuel n xs (y :: ys)
    else y :: mergeBlocksFuel n (x :: xs) ys

/-- Modelled from the spec: `SSNSBFStream_merge` interrupted by the escape
flag after `polls` blocks were written into the destination. -/
def mergeEscape (polls : Nat) (s1 s2 : SBFStream) (m1 m2 : MergeMask) : SBFStream :=
  ⟨mergeBlocksFuel polls (s1.blocks.filter (selects m1))
     (s2.blocks.filter (selects m2)), 0⟩

/-! ### Command protocol codec (modelled from the spec and snmptypes.h) -/

/-- The 6-byte object identifier tuple of a variable binding
(snmpOID_t without its size and nil bytes). -/
structure SnmpOID where
  appl : Nat
  group : Nat
  command : Nat
  argTableEntry : Nat
  indTableArg : Nat
  tableInd : Nat
deriving DecidableEq

/-- One variable binding: object identifier plus payload bytes. -/
structure SnmpBinding where
  oid : SnmpOID
  payload : List Nat
deriving DecidableEq

/-- Message header as read back by `SNMP_getMessageHeader`
(snmpHeader_t: preamble, version, checksum, length, community). -/
structure SnmpHeader where
  preamble0 : Nat
  preamble1 : Nat
  version : Nat
  checksum : Nat
  lengthField : Nat
  community0 : Nat
  community1 : Nat
deriving DecidableEq

/-- PDU header as read back by `SNMP_getPDUHeader` (snmpPDUHeader_t). -/
structure SnmpPDU where
  pduType : Nat
  requestID : Nat
  errorStatus : Nat
  errorIndex : Nat
deriving DecidableEq

/-- XOR ("modulo 2") checksum over a byte list, header excluded by the
caller. -/
def xorAll (l : List Nat) : Nat := l.foldr (fun a r => a ^^^ r) 0

/-- Wire bytes of the 6-byte object identifier. -/
def encOID (oid : SnmpOID) : List Nat :=
  [oid.appl % 256, oid.group % 256, oid.command % 256,
   oid.argTableEntry % 256, oid.indTableArg % 256, oid.tableInd % 256]

/-- Wire bytes of one variable binding: 1-byte size, 6-byte object
identifier, 1-byte nil pad, then the payload. -/
def encBinding (vb : SnmpBinding) : List Nat :=
  vb.payload.length % 256 :: (encOID vb.oid ++ 0 :: vb.payload.map (· % 256))

/-- Wire bytes of a sequence of variable bindings. -/
def bindingsBytes (bs : List SnmpBinding) : List Nat :=
  (bs.map encBinding).flatten

/-- Modelled from the spec: `SNMP_initMessageHeader` (implementation not
shipped).  Writes the 8-byte header: preamble `$&`, version 1, zero checksum,
zero length, community = authorization level then a zero terminator. -/
def SNMP_initMessageHeader (authlvl : Nat) : List Nat :=
  [36, 38, 1, 0, 0, 0, authlvl % 256, 0]

/-- Recompute the checksum (XOR of the message excluding the header) and the
length field (length of the message excluding the header, little-endian)
after bytes were appended. -/
def updateHeader (msg : List Nat) : List Nat :=
  msg.take 3 ++
    xorAll (msg.drop 8) :: (msg.drop 8).length % 256 ::
    (msg.drop 8).length / 256 % 256 :: msg.drop 6

/-- Modelled from the spec: `SNMP_addPDUHeader` (implementation not
shipped).  Appends the 4-byte PDU header {type, request id, error status 0,
error index 0} and refreshes the message header. -/
def SNMP_addPDUHeader (pduType requestID : Nat) (msg : List Nat) : List Nat :=
  updateHeader (msg ++ [pduType % 256, requestID % 256, 0, 0])

/-- Modelled from the spec: `SNMP_addVarBinding` (implementation not
shipped).  Appends one variable binding and refreshes the message header. -/
def SNMP_addVarBinding (vb : SnmpBinding) (msg : List Nat) : List Nat :=
  updateHeader (msg ++ encBinding vb)

/-- A command message built by the documented sequence: init header, add PDU
header, add each variable binding in order. -/
def buildCommandMessage (authlvl pduType requestID : Nat)
    (bs : List SnmpBinding) : List Nat :=
  bs.foldl (fun m vb => SNMP_addVarBinding vb m)
    (SNMP_addPDUHeader pduType requestID (SNMP_initMessageHeader authlvl))

/-- Canonical shape of a built message: header (with checksum and length
derived from the body) followed by the body. -/
def mkMsg (authlvl : Nat) (body : List Nat) : List Nat :=
  36 :: 38 :: 1 :: xorAll body :: body.length % 256 ::
    body.length / 256 % 256 :: authlvl % 256 :: 0 :: body

/-- Modelled from the spec: `SNMP_getMessageHeader` (implementation not
shipped).  Validates the preamble and returns the header fields and the
offset of the PDU header; `none` models the -1 "not a valid message"
return. -/
def SNMP_getMessageHeader (msg : List Nat) : Option (SnmpHeader × Nat) :=
  if msg.getD 0 0 = 36 ∧ msg.getD 1 0 = 38 ∧ 8 ≤ msg.length then
    some ({ preamble0 := msg.getD 0 0, preamble1 := msg.getD 1 0,
            version := msg.getD 2 0, checksum := msg.getD 3 0,
            lengthField := msg.getD 4 0 + 256 * msg.getD 5 0,
            community0 := msg.getD 6 0, community1 := msg.getD 7 0 }, 8)
  else none

/-- Modelled from the spec: `SNMP_getPDUHeader` (implementation not
shipped).  Returns the PDU fields and the offset of the first variable
binding. -/
def SNMP_getPDUHeader (msg : List Nat) : Option (SnmpPDU × Nat) :=
  if 12 ≤ msg.length then
    some ({ pduType := msg.getD 8 0, requestID := msg.getD 9 0,
            errorStatus := msg.getD 10 0, errorIndex := msg.getD 11 0 }, 12)
  else none

/-- Result of `SNMP_getVarBinding`: a binding with the offset of the next
one, the end-of-bindings marker, or an error — end-of-bindings is a distinct
outcome, not an error. -/
inductive SnmpVarBindingResult where
  | binding (oid : SnmpOID) (payload : List Nat) (next : Nat)
  | endOfBindings
  | sizeError
deriving DecidableEq

/-- Modelled from the spec: `SNMP_getVarBinding` (implementation not
shipped).  Reads the variable binding at `offset`; once the offset passes
the message length recorded in the header, reports end-of-bindings. -/
def SNMP_getVarBinding (msg : List Nat) (offset : Nat) : SnmpVarBindingResult :=
  let msglen := msg.getD 4 0 + 256 * msg.getD 5 0
  if 8 + msglen ≤ offset then .endOfBindings
  else
    let size := msg.getD offset 0
    if offset + 8 + size ≤ msg.length then
      .binding
        { appl := msg.getD (offset + 1) 0, group := msg.getD (offset + 2) 0,
          command := msg.getD (offset + 3) 0,
          argTableEntry := msg.getD (offset + 4) 0,
          indTableArg := msg.getD (offset + 5) 0,
          tableInd := msg.getD (offset + 6) 0 }
        ((msg.drop (offset + 8)).take size)
        (offset + 8 + size)
    else .sizeError

/-- Read variable bindings repeatedly from `offset` until a non-binding
result; returns the bindings in order and the final result. -/
def readBindings (msg : List Nat) : Nat → Nat → List SnmpBinding × SnmpVarBindingResult
  | 0, _ => ([], .sizeError)
  | fuel + 1, offset =>
    match SNMP_getVarBinding msg offset with
    | .binding oid payload next =>
      let r := readBindings msg fuel next
      (⟨oid, payload⟩ :: r.1, r.2)
    | r => ([], r)

/-- All stored fields of the binding are bytes, and the payload size fits
its one-byte field. -/
def ValidBinding (vb : SnmpBinding) : Prop :=
  vb.payload.length ≤ 255 ∧ (∀ x ∈ vb.payload, x < 256) ∧
  vb.oid.appl < 256 ∧ vb.oid.group < 256 ∧ vb.oid.command < 256 ∧
  vb.oid.argTableEntry < 256 ∧ vb.oid.indTableArg < 256 ∧ vb.oid.tableInd < 256

instance (vb : SnmpBinding) : Decidable (ValidBinding vb) := by
  unfold ValidBinding
  infer_instance

/-! ### File effects of the stream module (modelled from the spec) -/

/-- Modelled from the spec: the file system as a map from file names to the
block contents of SBF files (`none` = no such file). -/
def FileSys : Type := String → Option (List SBFBlock)

/-- Modelled from the spec: a session state — the file system and one open
stream handle. -/
structure SDKWorld where
  fs : FileSys
  stream : SBFStream

/-- In-memory stream operations available on a loaded stream.  None of them
touches the file system. -/
inductive StreamOp where
  | cropGNSSOp (gstart gend : Option ℚ) (o : CropOptions)
  | filterGNSSOp (gstart gend : ℚ) (o : CropOptions)
  | insertBlockOp (t : ℚ) (b : SBFBlock)
  | removeBlocksOp (sbfId : Nat)
  | mergeOp (other : SBFStream) (m1 m2 : MergeMask)
  | cleanOp

/-- Apply an in-memory stream operation. -/
def applyStreamOp (s : SBFStream) : StreamOp → SBFStream
  | .cropGNSSOp gstart gend o => cropGNSS s gstart gend o
  | .filterGNSSOp gstart gend o => filterGNSS s gstart gend o
  | .insertBlockOp t b => insertBlock s t b
  | .removeBlocksOp sbfId => ⟨s.blocks.filter (fun b => b.sbfId ≠ sbfId), 0⟩
  | .mergeOp other m1 m2 => (merge s other m1 m2).2.2
  | .cleanOp => ⟨[], 0⟩

/-- A session action: load a file into the stream, edit the stream in
memory, or write the stream to a named file. -/
inductive SDKAction where
  | loadFile (name : String)
  | edit (op : StreamOp)
  | writeToFile (name : String)

/-- Modelled from the spec: `SSNSBFStream_loadFile` reads the file and
populates the stream; stream mutations act in memory only;
`SSNSBFStream_writeToFile` overwrites exactly the named file with the
stream contents. -/
def runAction (w : SDKWorld) : SDKAction → SDKWorld
  | .loadFile name => { w with stream := ⟨(w.fs name).getD [], 0⟩ }
  | .edit op => { w with stream := applyStreamOp w.stream op }
  | .writeToFile name =>
    { w with fs := fun n => if n = name then some w.stream.blocks else w.fs n }

/-- Run a sequence of session actions. -/
def runActions (w : SDKWorld) (acts : List SDKAction) : SDKWorld :=
  acts.foldl runAction w

/-- Does the action write to the file system? -/
def isWriteAction : SDKAction → Bool
  | .writeToFile _ => true
  | _ => false

/-! ### Concrete fixtures used by witnesses and counterexamples -/

/-- A plain measurement-type block with GNSS time `t` and raw TOW `w`. -/
def mkTimedBlock (t : ℚ) (w : Nat) : SBFBlock :=
  { sbfId := 4027, time := some t, tow := some w, wnc := some 2000,
    isNav := false, applStart := 0, applEnd := 0, category := 1, payload := [] }

/-- A stream whose time pattern recurs: times 10, 20, 30, 10, 20. -/
def recurringStream : SBFStream :=
  ⟨[mkTimedBlock 10 10, mkTimedBlock 20 20, mkTimedBlock 30 30,
    mkTimedBlock 10 10, mkTimedBlock 20 20], 0⟩

/-- A stream that is not time-ordered: times 3 then 1. -/
def unsortedStream : SBFStream := ⟨[mkTimedBlock 3 3, mkTimedBlock 1 1], 0⟩

/-- A time-ordered two-block stream: times 1 and 5. -/
def sortedStreamA : SBFStream := ⟨[mkTimedBlock 1 1, mkTimedBlock 5 5], 0⟩

/-- A time-ordered two-block stream: times 2 and 4. -/
def sortedStreamB : SBFStream := ⟨[mkTimedBlock 2 2, mkTimedBlock 4 4], 0⟩

/-- The empty stream. -/
def emptyStream : SBFStream := ⟨[], 0⟩

/-- Concrete variable bindings for the command-message round trip. -/
def sampleBindings : List SnmpBinding :=
  [⟨⟨1, 2, 3, 4, 5, 6⟩, [10, 20, 30, 40]⟩,
   ⟨⟨7, 8, 9, 10, 11, 12⟩, []⟩,
   ⟨⟨13, 14, 15, 16, 17, 18⟩, [99]⟩]

/-- A concrete initial session state: one file on disk, no blocks loaded. -/
def sampleWorld : SDKWorld :=
  { fs := fun n => if n = "input.sbf" then some recurringStream.blocks else none,
    stream := emptyStream }

/-- A concrete session: load, crop, filter, insert — no write action. -/
def sampleActions : List SDKAction :=
  [.loadFile "input.sbf",
   .edit (.cropGNSSOp (some 10) (some 20) CropOptions.default),
   .edit (.insertBlockOp 15 (mkTimedBlock 15 15)),
   .edit (.filterGNSSOp 10 30 CropOptions.default)]

/-! ### Theorems: ErrorCode packing (C5, C6) -/

theorem u32_lt (e : Nat) : u32 e < 4294967296 := Nat.mod_lt _ (by norm_num)

theorem and_127_eq (e : Nat) : e &&& 0x0000007F = e % 2^7 := by
  have h := Nat.and_pow_two_sub_one_eq_mod e 7
  norm_num at h ⊢
  exact h

theorem and_255_eq (e : Nat) : e &&& 0x000000FF = e % 2^8 := by
  have h := Nat.and_pow_two_sub_one_eq_mod e 8
  norm_num at h ⊢
  exact h

theorem and_32767_eq (e : Nat) : e &&& 0x00007fff = e % 2^15 := by
  have h := Nat.and_pow_two_sub_one_eq_mod e 15
  norm_num at h ⊢
  exact h

theorem and_1_eq (e : Nat) : e &&& 0x00000001 = e % 2^1 := by
  simpa using Nat.and_pow_two_sub_one_eq_mod e 1

theorem SSNERROR_CREATE_eq (sev md submod gen code : Nat)
    (hsev : sev < 2) (hmd : md < 2^15) (hsub : submod < 2^8) (hgen : gen < 2)
    (hcode : code < 2^7) :
    SSNERROR_CREATE sev md submod gen code =
      sev * 2^31 + md * 2^16 + submod * 2^8 + gen * 2^7 + code := by
  unfold SSNERROR_CREATE u32
  rw [Nat.shiftLeft_eq, Nat.shiftLeft_eq, Nat.shiftLeft_eq, Nat.shiftLeft_eq]
  rw [Nat.mod_eq_of_lt (show sev < 4294967296 by omega),
      Nat.mod_eq_of_lt (show md < 4294967296 by omega),
      Nat.mod_eq_of_lt (show submod < 4294967296 by omega),
      Nat.mod_eq_of_lt (show gen < 4294967296 by omega),
      Nat.mod_eq_of_lt (show code < 4294967296 by omega),
      Nat.mod_eq_of_lt (show sev * 2^31 < 4294967296 by omega),
      Nat.mod_eq_of_lt (show md * 2^16 < 4294967296 by omega),
      Nat.mod_eq_of_lt (show submod * 2^8 < 4294967296 by omega),
      Nat.mod_eq_of_lt (show gen * 2^7 < 4294967296 by omega)]
  have e1 : sev * 2^31 ||| md * 2^16 = sev * 2^31 + md * 2^16 := by
    rw [Nat.mul_comm sev (2^31)]
    exact (Nat.mul_add_lt_is_or (by omega) sev).symm
  have e2 : sev * 2^31 + md * 2^16 ||| submod * 2^8 =
      sev * 2^31 + md * 2^16 + submod * 2^8 := by
    have h : sev * 2^31 + md * 2^16 = 2^16 * (sev * 2^15 + md) := by ring
    rw [h]
    exact (Nat.mul_add_lt_is_or (by omega) _).symm
  have e3 : sev * 2^31 + md * 2^16 + submod * 2^8 ||| gen * 2^7 =
      sev * 2^31 + md * 2^16 + submod * 2^8 + gen * 2^7 := by
    have h : sev * 2^31 + md * 2^16 + submod * 2^8 =
        2^8 * (sev * 2^23 + md * 2^8 + submod) := by ring
    rw [h]
    exact (Nat.mul_add_lt_is_or (by omega) _).symm
  have e4 : sev * 2^31 + md * 2^16 + submod * 2^8 + gen * 2^7 ||| code =
      sev * 2^31 + md * 2^16 + submod * 2^8 + gen * 2^7 + code := by
    have h : sev * 2^31 + md * 2^16 + submod * 2^8 + gen * 2^7 =
        2^7 * (sev * 2^24 + md * 2^9 + submod * 2 + gen) := by ring
    rw [h]
    exact (Nat.mul_add_lt_is_or (by omega) _).symm
  rw [e1, e2, e3, e4]
  exact Nat.mod_eq_of_lt (by omega)

/-- C5: ErrorCode packing is invertible — for every tuple with severity in
{0,1}, module < 2^15, submodule < 2^8, generality in {0,1} and code < 2^7,
each extractor applied to `SSNERROR_CREATE sev md submod gen code` returns
exactly its input field. -/
theorem errorcode_packing_invertible (sev md submod gen code : Nat)
    (hsev : sev < 2) (hmd : md < 2^15) (hsub : submod < 2^8) (hgen : gen < 2)
    (hcode : code < 2^7) :
    SSNERROR_GETCODE (SSNERROR_CREATE sev md submod gen code) = code ∧
    SSNERROR_GETMODULE (SSNERROR_CREATE sev md submod gen code) = md ∧
    SSNERROR_GETSUBMODULE (SSNERROR_CREATE sev md submod gen code) = submod ∧
    SSNERROR_GETSEVERITY (SSNERROR_CREATE sev md submod gen code) = sev ∧
    SSNERROR_GETTYPE (SSNERROR_CREATE sev md submod gen code) = gen := by
  have hc := SSNERROR_CREATE_eq sev md submod gen code hsev hmd hsub hgen hcode
  have hlt : SSNERROR_CREATE sev md submod gen code < 4294967296 := by
    rw [hc]; omega
  have hu : u32 (SSNERROR_CREATE sev md submod gen code) =
      SSNERROR_CREATE sev md submod gen code := Nat.mod_eq_of_lt hlt
  unfold SSNERROR_GETCODE SSNERROR_GETMODULE SSNERROR_GETSUBMODULE
    SSNERROR_GETSEVERITY SSNERROR_GETTYPE
  rw [hu, Nat.shiftRight_eq_div_pow, Nat.shiftRight_eq_div_pow,
      Nat.shiftRight_eq_div_pow, Nat.shiftRight_eq_div_pow,
      and_127_eq, and_32767_eq, and_255_eq, and_1_eq, and_1_eq, hc]
  refine ⟨by omega, by omega, by omega, by omega, by omega⟩

/-- Witness for C5 at the concrete tuple (1, 3, 2, 1, 5). -/
theorem errorcode_packing_invertible_witness :
    SSNERROR_GETCODE (SSNERROR_CREATE 1 3 2 1 5) = 5 ∧
    SSNERROR_GETMODULE (SSNERROR_CREATE 1 3 2 1 5) = 3 ∧
    SSNERROR_GETSUBMODULE (SSNERROR_CREATE 1 3 2 1 5) = 2 ∧
    SSNERROR_GETSEVERITY (SSNERROR_CREATE 1 3 2 1 5) = 1 ∧
    SSNERROR_GETTYPE (SSNERROR_CREATE 1 3 2 1 5) = 1 :=
  errorcode_packing_invertible 1 3 2 1 5 (by norm_num) (by norm_num)
    (by norm_num) (by norm_num) (by norm_num)

/-- C6 counterexample: at e = 256 (a 32-bit value with severity bit 0 and a
zero code field but a nonzero submodule field) `SSNERROR_ISWARNING` returns 1
although the code field is zero, so "warning iff bit 31 is 0 and the code
field is nonzero" is false on the code. -/
theorem iswarning_code_field_counterexample :
    ¬ (SSNERROR_ISWARNING 256 = 1 ↔
        SSNERROR_GETSEVERITY 256 = 0 ∧ SSNERROR_GETCODE 256 ≠ 0) := by
  decide

/-- C6 (amended): `SSNERROR_ISWARNING e = 1` exactly when the severity bit
(bit 31) of `e` is 0 and the whole 32-bit value is nonzero (not merely the
7-bit code field); and `e` is classified as a failure (`SSNERROR_GETSTATUS e
= 0`) exactly when bit 31 is 1. -/
theorem iswarning_iff_severity_and_nonzero (e : Nat) :
    (SSNERROR_ISWARNING e = 1 ↔ SSNERROR_GETSEVERITY e = 0 ∧ u32 e ≠ 0) ∧
    (SSNERROR_GETSTATUS e = 0 ↔ SSNERROR_GETSEVERITY e = 1) := by
  have hlt : u32 e < 4294967296 := u32_lt e
  unfold SSNERROR_ISWARNING SSNERROR_GETSTATUS SSNERROR_GETSEVERITY
  rw [Nat.shiftRight_eq_div_pow, and_1_eq]
  constructor
  · constructor
    · intro h
      split at h
      · next hcond => exact ⟨by omega, hcond.2⟩
      · simp at h
    · rintro ⟨h1, h2⟩
      rw [if_pos ⟨by omega, h2⟩]
  · constructor
    · intro h
      split at h
      · simp at h
      · next hcond => omega
    · intro h
      rw [if_neg (by omega)]

/-! ### Theorems: the crop engine (C1, C7) -/

theorem cropScan_after_eq (key : SBFBlock → Option ℚ) (gs ge : Option ℚ)
    (o : CropOptions) :
    ∀ bs, cropScan key gs ge o .after bs = bs.filter (navKeep gs ge o) := by
  intro bs
  induction bs with
  | nil => rfl
  | cons b bs ih =>
    simp only [cropScan, List.filter_cons, ih]
    by_cases h : navKeep gs ge o b <;> simp [h]

theorem cropScan_inside_eq (key : SBFBlock → Option ℚ) (gs ge : Option ℚ)
    (o : CropOptions) :
    ∀ bs, cropScan key gs ge o .inside bs =
      (bs.take (bs.findIdx (matchesEnd key ge) + 1)).filter (windowKeep key gs ge o) ++
      (bs.drop (bs.findIdx (matchesEnd key ge) + 1)).filter (navKeep gs ge o) := by
  intro bs
  induction bs with
  | nil => simp [cropScan]
  | cons b bs ih =>
    by_cases he : matchesEnd key ge b
    · simp only [cropScan, he, if_true, List.findIdx_cons, cond_true,
        List.take_succ_cons, List.take_zero, List.drop_succ_cons, List.drop_zero,
        List.filter_cons, cropScan_after_eq]
      by_cases hw : windowKeep key gs ge o b <;> simp [hw]
    · simp only [cropScan, he, if_false, List.findIdx_cons, cond_false,
        List.take_succ_cons, List.drop_succ_cons, List.filter_cons, ih]
      by_cases hw : windowKeep key gs ge o b <;> simp [hw, ih]

theorem cropScan_before_eq (key : SBFBlock → Option ℚ) (gs ge : Option ℚ)
    (o : CropOptions) :
    ∀ bs, cropScan key gs ge o .before bs = cropSpecList key bs gs ge o := by
  intro bs
  induction bs with
  | nil => simp [cropScan, cropSpecList]
  | cons b bs ih =>
    by_cases hs : matchesStart key gs b
    · by_cases he : matchesEnd key ge b
      · simp only [cropScan, hs, if_true, he, cropScan_after_eq,
          cropSpecList, cropStartIdx, cropWindowLen, List.findIdx_cons,
          cond_true, List.drop_zero, List.take_zero, List.take_succ_cons,
          List.drop_succ_cons, List.filter_cons, List.filter_nil]
        by_cases hw : windowKeep key gs ge o b <;> simp [hw]
      · simp only [cropScan, hs, if_true, he, if_false, cropScan_inside_eq,
          cropSpecList, cropStartIdx, cropWindowLen, List.findIdx_cons,
          cond_true, cond_false, List.drop_zero, List.take_zero,
          List.take_succ_cons, List.drop_succ_cons, List.filter_cons,
          List.filter_nil]
        by_cases hw : windowKeep key gs ge o b <;>
          simp [hw, cropScan_inside_eq key gs ge o bs]
    · simp only [cropScan, hs, if_false, ih, cropSpecList, cropStartIdx,
        cropWindowLen, List.findIdx_cons, cond_false, List.take_succ_cons,
        List.drop_succ_cons, List.filter_cons]
      by_cases hn : navKeep gs ge o b <;> simp [hn]

/-- C1: for every stream and bounds, `cropGNSS` keeps exactly one contiguous
interval — from the first block with time ≥ start through the next block
with time ≥ end — and discards everything after it even if the time pattern
recurs; outside that window only navigation blocks whose applicability
window overlaps the query range are kept, and none when the
discard-applicability option is set. -/
theorem cropGNSS_keeps_first_interval (s : SBFStream) (gstart gend : Option ℚ)
    (o : CropOptions) :
    (cropGNSS s gstart gend o).blocks = cropSpecList gnssKey s.blocks gstart gend o :=
  cropScan_before_eq gnssKey gstart gend o s.blocks

example :
    (cropGNSS recurringStream (some 10) (some 20) CropOptions.default).blocks =
      [mkTimedBlock 10 10, mkTimedBlock 20 20] := by decide

/-- C7: with valid week numbers, `cropTOW` and `filterTOW` produce exactly
the stream produced by `cropGNSS`/`filterGNSS` at the GNSS times computed
from (tow, wnc); with the not-valid sentinel, the selection compares raw TOW
values only — the crop branch satisfies the first-interval characterisation
keyed on the raw TOW field and the filter branch keeps blocks by their raw
TOW value alone. -/
theorem cropTOW_filterTOW_delegation (s : SBFStream) (towstart towend ws we : Nat)
    (o : CropOptions) :
    cropTOW s towstart (some ws) towend (some we) o =
      cropGNSS s (some (gnssTimeOf towstart ws)) (some (gnssTimeOf towend we)) o ∧
    filterTOW s towstart (some ws) towend (some we) o =
      filterGNSS s (gnssTimeOf towstart ws) (gnssTimeOf towend we) o ∧
    (cropTOW s towstart none towend none o).blocks =
      cropSpecList towKey s.blocks (some (towstart : ℚ)) (some (towend : ℚ)) o ∧
    (filterTOW s towstart none towend none o).blocks =
      s.blocks.filter (filterKeep towKey (towstart : ℚ) (towend : ℚ) o) :=
  ⟨rfl, rfl, cropScan_before_eq towKey _ _ o s.blocks, rfl⟩

/-! ### Theorems: the filter engine (C2) -/

/-- C2: `filterGNSS` keeps every block whose GNSS time lies in the half-open
interval [start, end) — with its full multiplicity, so on a timeline whose
time pattern recurs every recurrence survives, unlike `cropGNSS`. -/
theorem filterGNSS_keeps_every_in_range (s : SBFStream) (gstart gend : ℚ)
    (o : CropOptions) (b : SBFBlock) (t : ℚ)
    (ht : b.time = some t) (h1 : gstart ≤ t) (h2 : t < gend) :
    ((filterGNSS s gstart gend o).blocks.count b = s.blocks.count b ∧
      (b ∈ s.blocks → b ∈ (filterGNSS s gstart gend o).blocks)) := by
  have hkeep : filterKeep gnssKey gstart gend o b = true := by
    unfold filterKeep gnssKey
    rw [ht]
    simp [h1, h2]
  constructor
  · exact List.count_filter hkeep
  · intro hmem
    exact List.mem_filter.mpr ⟨hmem, hkeep⟩

/-- Witness for C2 on the recurring stream (times 10, 20, 30, 10, 20) with
the interval [10, 25): the block at time 10 keeps both its occurrences. -/
theorem filterGNSS_keeps_every_in_range_witness :
    ((filterGNSS recurringStream 10 25 CropOptions.default).blocks.count
        (mkTimedBlock 10 10) = recurringStream.blocks.count (mkTimedBlock 10 10) ∧
      (mkTimedBlock 10 10 ∈ recurringStream.blocks →
        mkTimedBlock 10 10 ∈
          (filterGNSS recurringStream 10 25 CropOptions.default).blocks)) :=
  filterGNSS_keeps_every_in_range recurringStream 10 25 CropOptions.default
    (mkTimedBlock 10 10) 10 rfl (by norm_num) (by norm_num)

/-! ### Theorems: insertBlock (C4) -/

theorem mem_take_findIdx_eq_false {α : Type} {p : α → Bool} :
    ∀ (l : List α), ∀ x ∈ l.take (l.findIdx p), p x = false := by
  intro l
  induction l with
  | nil => simp
  | cons a l ih =>
    by_cases h : p a
    · simp [List.findIdx_cons, h]
    · intro x hx
      rw [List.findIdx_cons] at hx
      have hb : p a = false := by simpa using h
      rw [hb] at hx
      simp only [cond_false, List.take_succ_cons, List.mem_cons] at hx
      rcases hx with rfl | hx
      · exact hb
      · exact ih x hx

theorem mem_head_drop_findIdx {α : Type} {p : α → Bool} (l : List α) :
    ∀ x ∈ (l.drop (l.findIdx p)).take 1, p x = true := by
  intro x hx
  by_cases h : l.findIdx p < l.length
  · rw [List.drop_eq_getElem_cons h] at hx
    simp only [List.take_succ_cons, List.take_zero, List.mem_singleton] at hx
    subst hx
    exact List.findIdx_getElem
  · rw [List.drop_eq_nil_of_le (by omega)] at hx
    simp at hx

theorem findIdx_append_of_false {α : Type} {p : α → Bool} :
    ∀ (l1 l2 : List α), (∀ x ∈ l1, p x = false) →
      (l1 ++ l2).findIdx p = l1.length + l2.findIdx p := by
  intro l1
  induction l1 with
  | nil => simp
  | cons a l1 ih =>
    intro l2 hf
    have ha : p a = false := hf a (by simp)
    simp only [List.cons_append, List.findIdx_cons, ha, cond_false,
      List.length_cons]
    rw [ih l2 (fun x hx => hf x (by simp [hx]))]
    omega

/-- C4: `insertBlock` places the block immediately before the first existing
block whose GNSS time is strictly larger than the insertion time (every
earlier block is not strictly later; the block at the insertion position, if
any, is); two blocks inserted at the same time end up in insertion order;
and the pre-existing blocks keep their relative order (the original list is
a sublist of the result). -/
theorem insertBlock_before_first_later (s : SBFStream) (t : ℚ) (b b1 b2 : SBFBlock)
    (hb1 : laterThan t b1 = false) :
    (insertBlock s t b).blocks =
      s.blocks.take (s.blocks.findIdx (laterThan t)) ++
        b :: s.blocks.drop (s.blocks.findIdx (laterThan t)) ∧
    (∀ x ∈ s.blocks.take (s.blocks.findIdx (laterThan t)), laterThan t x = false) ∧
    (∀ x ∈ (s.blocks.drop (s.blocks.findIdx (laterThan t))).take 1,
      laterThan t x = true) ∧
    (insertBlock (insertBlock s t b1) t b2).blocks =
      s.blocks.take (s.blocks.findIdx (laterThan t)) ++
        b1 :: b2 :: s.blocks.drop (s.blocks.findIdx (laterThan t)) ∧
    List.Sublist s.blocks (insertBlock s t b).blocks := by
  have hple : s.blocks.findIdx (laterThan t) ≤ s.blocks.length :=
    List.findIdx_le_length _
  refine ⟨rfl, mem_take_findIdx_eq_false s.blocks, mem_head_drop_findIdx s.blocks,
    ?_, ?_⟩
  · set l := s.blocks with hl
    set p := l.findIdx (laterThan t) with hp
    have hfalse : ∀ x ∈ l.take p ++ [b1], laterThan t x = false := by
      intro x hx
      rcases List.mem_append.mp hx with hx | hx
      · exact mem_take_findIdx_eq_false l x hx
      · rw [List.mem_singleton] at hx
        subst hx
        exact hb1
    have hlen1 : (l.take p ++ [b1]).length = p + 1 := by
      simp [List.length_take, Nat.min_eq_left hple]
    have hassoc : l.take p ++ b1 :: l.drop p = (l.take p ++ [b1]) ++ l.drop p := by
      simp
    have hidx : (l.take p ++ b1 :: l.drop p).findIdx (laterThan t) = p + 1 := by
      rw [hassoc, findIdx_append_of_false _ _ hfalse, hlen1]
      cases hd : l.drop p with
      | nil => simp
      | cons y ys =>
        have hy : laterThan t y = true := by
          apply mem_head_drop_findIdx l
          rw [← hp, hd]
          simp
        simp [List.findIdx_cons, hy]
    show ((insertBlock s t b1).blocks.take
        ((insertBlock s t b1).blocks.findIdx (laterThan t)) ++
      b2 :: (insertBlock s t b1).blocks.drop
        ((insertBlock s t b1).blocks.findIdx (laterThan t))) = _
    have hblocks : (insertBlock s t b1).blocks = l.take p ++ b1 :: l.drop p := rfl
    rw [hblocks, hidx, hassoc,
      List.take_left' hlen1, List.drop_left' hlen1]
    simp
  · conv_lhs => rw [← List.take_append_drop (s.blocks.findIdx (laterThan t)) s.blocks]
    exact List.Sublist.append_left (List.sublist_cons_self b _) _

/-- Witness for C4: inserting at time 3 into the stream with times 1 and 5,
then a second block at the same time. -/
theorem insertBlock_before_first_later_witness :
    (insertBlock sortedStreamA 3 (mkTimedBlock 3 3)).blocks =
      sortedStreamA.blocks.take (sortedStreamA.blocks.findIdx (laterThan 3)) ++
        mkTimedBlock 3 3 ::
          sortedStreamA.blocks.drop (sortedStreamA.blocks.findIdx (laterThan 3)) ∧
    (∀ x ∈ sortedStreamA.blocks.take (sortedStreamA.blocks.findIdx (laterThan 3)),
      laterThan 3 x = false) ∧
    (∀ x ∈ (sortedStreamA.blocks.drop
        (sortedStreamA.blocks.findIdx (laterThan 3))).take 1,
      laterThan 3 x = true) ∧
    (insertBlock (insertBlock sortedStreamA 3 (mkTimedBlock 3 3)) 3
        (mkTimedBlock 3 4)).blocks =
      sortedStreamA.blocks.take (sortedStreamA.blocks.findIdx (laterThan 3)) ++
        mkTimedBlock 3 3 :: mkTimedBlock 3 4 ::
          sortedStreamA.blocks.drop (sortedStreamA.blocks.findIdx (laterThan 3)) ∧
    List.Sublist sortedStreamA.blocks
      (insertBlock sortedStreamA 3 (mkTimedBlock 3 3)).blocks :=
  insertBlock_before_first_later sortedStreamA 3 (mkTimedBlock 3 3)
    (mkTimedBlock 3 3) (mkTimedBlock 3 4) (by decide)

/-! ### Theorems: merge (C3, C9) -/

theorem timeLE_iff (a b : SBFBlock) : timeLE a b = true ↔ timeRel a b := by
  simp [timeLE, timeRel]

theorem timeOrdered_iff_chain' :
    ∀ l : List SBFBlock, TimeOrdered l ↔ l.Chain' timeRel := by
  intro l
  induction l with
  | nil => simp [TimeOrdered, timeOrderedB]
  | cons a l ih =>
    cases l with
    | nil => simp [TimeOrdered, timeOrderedB]
    | cons b rest =>
      rw [List.chain'_cons, ← ih]
      simp [TimeOrdered, timeOrderedB, timeLE_iff]

theorem mergeBlocks_nil_right : ∀ xs, mergeBlocks xs [] = xs
  | [] => rfl
  | x :: xs => by
    simp only [mergeBlocks, mergeOne]
    rw [show mergeBlocks xs [] = xs from mergeBlocks_nil_right xs]

theorem mergeBlocks_cons_cons (x y : SBFBlock) (xs ys : List SBFBlock) :
    mergeBlocks (x :: xs) (y :: ys) =
      if timeLE x y then x :: mergeBlocks xs (y :: ys)
      else y :: mergeBlocks (x :: xs) ys := rfl

theorem mergeBlocks_perm :
    ∀ xs ys, List.Perm (mergeBlocks xs ys) (xs ++ ys) := by
  intro xs
  induction xs with
  | nil => intro ys; exact List.Perm.refl ys
  | cons x xs ihx =>
    intro ys
    induction ys with
    | nil =>
      rw [mergeBlocks_nil_right]
      simp
    | cons y ys ihy =>
      rw [mergeBlocks_cons_cons]
      by_cases h : timeLE x y
      · simp only [h, if_true]
        exact (ihx (y :: ys)).cons x
      · simp only [h, if_false]
        exact (ihy.cons y).trans List.perm_middle.symm

theorem mergeBlocks_pairwise :
    ∀ xs ys, List.Pairwise timeRel xs → List.Pairwise timeRel ys →
      List.Pairwise timeRel (mergeBlocks xs ys) := by
  intro xs
  induction xs with
  | nil => intro ys _ hy; exact hy
  | cons x xs ihx =>
    intro ys
    induction ys with
    | nil =>
      intro hx _
      rw [mergeBlocks_nil_right]
      exact hx
    | cons y ys ihy =>
      intro hx hy
      rcases List.pairwise_cons.mp hx with ⟨hxall, hxs⟩
      rcases List.pairwise_cons.mp hy with ⟨hyall, hys⟩
      rw [mergeBlocks_cons_cons]
      by_cases h : timeLE x y
      · simp only [h, if_true]
        refine List.pairwise_cons.mpr ⟨?_, ihx (y :: ys) hxs hy⟩
        intro z hz
        have hmem := (mergeBlocks_perm xs (y :: ys)).mem_iff.mp hz
        rcases List.mem_append.mp hmem with hz1 | hz2
        · exact hxall z hz1
        · rcases List.mem_cons.mp hz2 with rfl | hz3
          · exact (timeLE_iff x z).mp h
          · exact le_trans ((timeLE_iff x y).mp h) (hyall z hz3)
      · simp only [h, if_false]
        have hyx : timeRel y x := by
          have hxy : ¬ timeRel x y := fun hr => h ((timeLE_iff x y).mpr hr)
          exact le_of_not_le hxy
        refine List.pairwise_cons.mpr ⟨?_, ihy (List.pairwise_cons.mpr ⟨hxall, hxs⟩) hys⟩
        intro z hz
        have hmem := (mergeBlocks_perm (x :: xs) ys).mem_iff.mp hz
        rcases List.mem_append.mp hmem with hz1 | hz2
        · rcases List.mem_cons.mp hz1 with rfl | hz3
          · exact hyx
          · exact le_trans hyx (hxall z hz3)
        · exact hyall z hz2

/-- C3 counterexample: with a first input stream that is not time-ordered
(times 3 then 1), an empty second stream and the ALL masks, the merged
destination is not time-ordered — so merge output is not sorted for *every*
pair of input streams, only for time-ordered ones. -/
theorem merge_all_streams_counterexample :
    ¬ TimeOrdered (merge unsortedStream emptyStream .allBlocks .allBlocks).2.2.blocks := by
  decide

/-- C3 (amended): provided each input stream is time-ordered — the only
change the counterexample forces — `merge` rewinds both inputs, writes into
the destination exactly the blocks of the first input selected by mask 1 and
those of the second input selected by mask 2 (a permutation of the two
selections), interleaved so that every adjacent pair of destination blocks
is ordered by time, and the destination is rewound afterwards. -/
theorem merge_writes_selected_time_ordered (s1 s2 : SBFStream) (m1 m2 : MergeMask)
    (h1 : TimeOrdered s1.blocks) (h2 : TimeOrdered s2.blocks) :
    TimeOrdered (merge s1 s2 m1 m2).2.2.blocks ∧
    List.Perm (merge s1 s2 m1 m2).2.2.blocks
      (s1.blocks.filter (selects m1) ++ s2.blocks.filter (selects m2)) ∧
    (merge s1 s2 m1 m2).1 = ⟨s1.blocks, 0⟩ ∧
    (merge s1 s2 m1 m2).2.1 = ⟨s2.blocks, 0⟩ ∧
    (merge s1 s2 m1 m2).2.2.cursor = 0 := by
  have hp1 : List.Pairwise timeRel (s1.blocks.filter (selects m1)) :=
    List.Pairwise.sublist (List.filter_sublist _)
      (List.chain'_iff_pairwise.mp ((timeOrdered_iff_chain' _).mp h1))
  have hp2 : List.Pairwise timeRel (s2.blocks.filter (selects m2)) :=
    List.Pairwise.sublist (List.filter_sublist _)
      (List.chain'_iff_pairwise.mp ((timeOrdered_iff_chain' _).mp h2))
  refine ⟨?_, mergeBlocks_perm _ _, rfl, rfl, rfl⟩
  exact (timeOrdered_iff_chain' _).mpr (mergeBlocks_pairwise _ _ hp1 hp2).chain'

/-- Witness for the amended C3 on two concrete time-ordered streams
(times 1,5 and 2,4). -/
theorem merge_writes_selected_time_ordered_witness :
    TimeOrdered (merge sortedStreamA sortedStreamB .allBlocks .allBlocks).2.2.blocks ∧
    List.Perm (merge sortedStreamA sortedStreamB .allBlocks .allBlocks).2.2.blocks
      (sortedStreamA.blocks.filter (selects .allBlocks) ++
        sortedStreamB.blocks.filter (selects .allBlocks)) ∧
    (merge sortedStreamA sortedStreamB .allBlocks .allBlocks).1 =
      ⟨sortedStreamA.blocks, 0⟩ ∧
    (merge sortedStreamA sortedStreamB .allBlocks .allBlocks).2.1 =
      ⟨sortedStreamB.blocks, 0⟩ ∧
    (merge sortedStreamA sortedStreamB .allBlocks .allBlocks).2.2.cursor = 0 :=
  merge_writes_selected_time_ordered sortedStreamA sortedStreamB
    .allBlocks .allBlocks (by decide) (by decide)

theorem mergeBlocksFuel_take :
    ∀ (n : Nat) (xs ys : List SBFBlock),
      mergeBlocksFuel n xs ys = (mergeBlocks xs ys).take n := by
  intro n
  induction n with
  | zero => intro xs ys; rfl
  | succ n ih =>
    intro xs ys
    cases xs with
    | nil => rfl
    | cons x xs =>
      cases ys with
      | nil => rw [mergeBlocks_nil_right]; rfl
      | cons y ys =>
        rw [mergeBlocks_cons_cons]
        by_cases h : timeLE x y
        · simp [mergeBlocksFuel, h, ih]
        · simp [mergeBlocksFuel, h, ih]

/-- C9: when the caller-owned escape flag stops the merge after `polls`
written blocks, the destination holds exactly a prefix (`take polls`) of the
full merge result — nothing is rolled back — and, for time-ordered inputs,
that prefix is itself time-ordered; every written block is an intact block of
one of the two input streams. -/
theorem mergeEscape_is_ordered_prefix (polls : Nat) (s1 s2 : SBFStream)
    (m1 m2 : MergeMask)
    (h1 : TimeOrdered s1.blocks) (h2 : TimeOrdered s2.blocks) :
    (mergeEscape polls s1 s2 m1 m2).blocks =
      (merge s1 s2 m1 m2).2.2.blocks.take polls ∧
    TimeOrdered (mergeEscape polls s1 s2 m1 m2).blocks ∧
    ∀ b ∈ (mergeEscape polls s1 s2 m1 m2).blocks,
      b ∈ s1.blocks ∨ b ∈ s2.blocks := by
  have htake : (mergeEscape polls s1 s2 m1 m2).blocks =
      (merge s1 s2 m1 m2).2.2.blocks.take polls :=
    mergeBlocksFuel_take polls _ _
  have hp1 : List.Pairwise timeRel (s1.blocks.filter (selects m1)) :=
    List.Pairwise.sublist (List.filter_sublist _)
      (List.chain'_iff_pairwise.mp ((timeOrdered_iff_chain' _).mp h1))
  have hp2 : List.Pairwise timeRel (s2.blocks.filter (selects m2)) :=
    List.Pairwise.sublist (List.filter_sublist _)
      (List.chain'_iff_pairwise.mp ((timeOrdered_iff_chain' _).mp h2))
  have hmerge : List.Pairwise timeRel (merge s1 s2 m1 m2).2.2.blocks :=
    mergeBlocks_pairwise _ _ hp1 hp2
  refine ⟨htake, ?_, ?_⟩
  · rw [htake]
    exact (timeOrdered_iff_chain' _).mpr
      (List.Pairwise.sublist (List.take_sublist _ _) hmerge).chain'
  · intro b hb
    rw [htake] at hb
    have hb2 : b ∈ (merge s1 s2 m1 m2).2.2.blocks :=
      List.Sublist.mem hb (List.take_sublist _ _)
    have hb3 := (mergeBlocks_perm _ _).mem_iff.mp hb2
    rcases List.mem_append.mp hb3 with hbl | hbr
    · exact Or.inl (List.mem_of_mem_filter hbl)
    · exact Or.inr (List.mem_of_mem_filter hbr)

/-- Witness for C9: interrupting the merge of the concrete time-ordered
streams after 3 written blocks. -/
theorem mergeEscape_is_ordered_prefix_witness :
    (mergeEscape 3 sortedStreamA sortedStreamB .allBlocks .allBlocks).blocks =
      (merge sortedStreamA sortedStreamB .allBlocks .allBlocks).2.2.blocks.take 3 ∧
    TimeOrdered (mergeEscape 3 sortedStreamA sortedStreamB
      .allBlocks .allBlocks).blocks ∧
    ∀ b ∈ (mergeEscape 3 sortedStreamA sortedStreamB .allBlocks .allBlocks).blocks,
      b ∈ sortedStreamA.blocks ∨ b ∈ sortedStreamB.blocks :=
  mergeEscape_is_ordered_prefix 3 sortedStreamA sortedStreamB
    .allBlocks .allBlocks (by decide) (by decide)

/-! ### Theorems: command message round trip (C8) -/

theorem updateHeader_mkMsg (a : Nat) (body tail : List Nat) :
    updateHeader (mkMsg a body ++ tail) = mkMsg a (body ++ tail) := by
  simp [updateHeader, mkMsg]

theorem addPDUHeader_init (a t r : Nat) :
    SNMP_addPDUHeader t r (SNMP_initMessageHeader a) =
      mkMsg a [t % 256, r % 256, 0, 0] := by
  simp [SNMP_addPDUHeader, SNMP_initMessageHeader, updateHeader, mkMsg]

theorem foldl_addVarBinding (a : Nat) (bs : List SnmpBinding) :
    ∀ body, bs.foldl (fun m vb => SNMP_addVarBinding vb m) (mkMsg a body) =
      mkMsg a (body ++ bindingsBytes bs) := by
  induction bs with
  | nil => intro body; simp [bindingsBytes]
  | cons vb bs ih =>
    intro body
    rw [List.foldl_cons]
    rw [show SNMP_addVarBinding vb (mkMsg a body) = mkMsg a (body ++ encBinding vb)
      from updateHeader_mkMsg a body (encBinding vb), ih]
    simp [bindingsBytes]

theorem buildCommandMessage_eq (a t r : Nat) (bs : List SnmpBinding) :
    buildCommandMessage a t r bs =
      mkMsg a ([t % 256, r % 256, 0, 0] ++ bindingsBytes bs) := by
  unfold buildCommandMessage
  rw [addPDUHeader_init, foldl_addVarBinding]

theorem getD_drop (l : List Nat) :
    ∀ (n i : Nat), (l.drop n).getD i 0 = l.getD (n + i) 0 := by
  induction l with
  | nil => intro n i; simp
  | cons x l ih =>
    intro n i
    cases n with
    | zero => simp
    | succ n =>
      rw [List.drop_succ_cons, ih n i,
        show n + 1 + i = (n + i) + 1 by omega, List.getD_cons_succ]

theorem encBinding_length (vb : SnmpBinding) :
    (encBinding vb).length = 8 + vb.payload.length := by
  simp [encBinding, encOID]
  omega

theorem mkMsg_length (a : Nat) (body : List Nat) :
    (mkMsg a body).length = 8 + body.length := by
  simp [mkMsg]
  omega

theorem map_mod_self :
    ∀ l : List Nat, (∀ x ∈ l, x < 256) → l.map (· % 256) = l := by
  intro l
  induction l with
  | nil => intro _; simp
  | cons x l ih =>
    intro h
    simp only [List.map_cons, Nat.mod_eq_of_lt (h x (by simp)),
      ih (fun y hy => h y (by simp [hy]))]

theorem encBinding_cons_form (vb : SnmpBinding) (rest : List Nat) :
    encBinding vb ++ rest =
      vb.payload.length % 256 :: vb.oid.appl % 256 :: vb.oid.group % 256 ::
      vb.oid.command % 256 :: vb.oid.argTableEntry % 256 ::
      vb.oid.indTableArg % 256 :: vb.oid.tableInd % 256 :: 0 ::
      (vb.payload.map (· % 256) ++ rest) := by
  simp [encBinding, encOID]

theorem getVarBinding_at (M : List Nat) (o : Nat) (vb : SnmpBinding)
    (rest : List Nat)
    (hlen : M.getD 4 0 + 256 * M.getD 5 0 + 8 = M.length)
    (hdrop : M.drop o = encBinding vb ++ rest)
    (hend : o + (encBinding vb ++ rest).length = M.length)
    (hv : ValidBinding vb) :
    SNMP_getVarBinding M o =
      .binding vb.oid vb.payload (o + 8 + vb.payload.length) := by
  obtain ⟨hplen, hpbytes, h1, h2, h3, h4, h5, h6⟩ := hv
  have hread : ∀ i, M.getD (o + i) 0 = (encBinding vb ++ rest).getD i 0 := by
    intro i
    rw [← hdrop, getD_drop]
  have hlenapp : (encBinding vb ++ rest).length = 8 + vb.payload.length + rest.length := by
    rw [List.length_append, encBinding_length]
  have holt : o + 8 + vb.payload.length ≤ M.length := by omega
  have hosz : o < M.length := by omega
  have hsize : M.getD o 0 = vb.payload.length := by
    have := hread 0
    rw [Nat.add_zero] at this
    rw [this, encBinding_cons_form]
    simp [Nat.mod_eq_of_lt (show vb.payload.length < 256 by omega)]
  have hpay : (M.drop (o + 8)).take vb.payload.length = vb.payload := by
    have hd : M.drop (o + 8) = (M.drop o).drop 8 := by
      rw [List.drop_drop]
    rw [hd, hdrop, encBinding_cons_form]
    simp only [List.drop_succ_cons, List.drop_zero]
    rw [List.take_left' (by simp), map_mod_self vb.payload hpbytes]
  simp only [SNMP_getVarBinding]
  rw [if_neg (by omega)]
  rw [hsize]
  rw [if_pos (by omega)]
  have hoid1 : M.getD (o + 1) 0 = vb.oid.appl := by
    rw [hread 1, encBinding_cons_form]
    simp [Nat.mod_eq_of_lt h1]
  have hoid2 : M.getD (o + 2) 0 = vb.oid.group := by
    rw [hread 2, encBinding_cons_form]
    simp [Nat.mod_eq_of_lt h2]
  have hoid3 : M.getD (o + 3) 0 = vb.oid.command := by
    rw [hread 3, encBinding_cons_form]
    simp [Nat.mod_eq_of_lt h3]
  have hoid4 : M.getD (o + 4) 0 = vb.oid.argTableEntry := by
    rw [hread 4, encBinding_cons_form]
    simp [Nat.mod_eq_of_lt h4]
  have hoid5 : M.getD (o + 5) 0 = vb.oid.indTableArg := by
    rw [hread 5, encBinding_cons_form]
    simp [Nat.mod_eq_of_lt h5]
  have hoid6 : M.getD (o + 6) 0 = vb.oid.tableInd := by
    rw [hread 6, encBinding_cons_form]
    simp [Nat.mod_eq_of_lt h6]
  rw [hoid1, hoid2, hoid3, hoid4, hoid5, hoid6, hpay]

theorem readBindings_spec (M : List Nat)
    (hlen : M.getD 4 0 + 256 * M.getD 5 0 + 8 = M.length) :
    ∀ (suf : List SnmpBinding) (o : Nat),
      M.drop o = bindingsBytes suf →
      o + (bindingsBytes suf).length = M.length →
      (∀ vb ∈ suf, ValidBinding vb) →
      readBindings M (suf.length + 1) o = (suf, .endOfBindings) := by
  intro suf
  induction suf with
  | nil =>
    intro o hdrop hend _
    have ho : o = M.length := by simpa [bindingsBytes] using hend
    have hgv : SNMP_getVarBinding M o = .endOfBindings := by
      simp only [SNMP_getVarBinding]
      rw [if_pos (by omega)]
    simp [readBindings, hgv]
  | cons vb suf ih =>
    intro o hdrop hend hv
    have hbb : bindingsBytes (vb :: suf) = encBinding vb ++ bindingsBytes suf := by
      simp [bindingsBytes]
    rw [hbb] at hdrop hend
    have hvb := hv vb (by simp)
    have hgv := getVarBinding_at M o vb (bindingsBytes suf) hlen hdrop hend hvb
    have hdd : M.drop (o + (8 + vb.payload.length)) =
        (M.drop o).drop (8 + vb.payload.length) := by
      rw [List.drop_drop]
    have hnext_drop : M.drop (o + 8 + vb.payload.length) = bindingsBytes suf := by
      rw [show o + 8 + vb.payload.length = o + (8 + vb.payload.length) by omega,
        hdd, hdrop, List.drop_left' (by rw [encBinding_length])]
    have hnext_end :
        (o + 8 + vb.payload.length) + (bindingsBytes suf).length = M.length := by
      rw [List.length_append, encBinding_length] at hend
      omega
    have hr := ih (o + 8 + vb.payload.length) hnext_drop hnext_end
      (fun x hx => hv x (by simp [hx]))
    have hstep : readBindings M (suf.length + 1 + 1) o =
        ((⟨vb.oid, vb.payload⟩ : SnmpBinding) ::
            (readBindings M (suf.length + 1) (o + 8 + vb.payload.length)).1,
          (readBindings M (suf.length + 1) (o + 8 + vb.payload.length)).2) := by
      show (match SNMP_getVarBinding M o with
        | .binding oid payload next =>
          ((⟨oid, payload⟩ : SnmpBinding) ::
              (readBindings M (suf.length + 1) next).1,
            (readBindings M (suf.length + 1) next).2)
        | r => ([], r)) = _
      rw [hgv]
    simp only [List.length_cons]
    rw [hstep, hr]

/-- C8: a command message built by init-header, add-PDU-header and a
sequence of variable-binding additions, of total size at most 2048 bytes,
reads back through get-message-header, get-PDU-header and repeated
get-variable-binding with exactly the object identifiers and payloads that
were added, in order; the read following the last binding reports
end-of-bindings, a result distinct from an error. -/
theorem commandMessage_roundtrip (a t r : Nat) (bs : List SnmpBinding)
    (hv : ∀ vb ∈ bs, ValidBinding vb)
    (hsize : (buildCommandMessage a t r bs).length ≤ 2048) :
    SNMP_getMessageHeader (buildCommandMessage a t r bs) =
      some ({ preamble0 := 36, preamble1 := 38, version := 1,
              checksum := xorAll ([t % 256, r % 256, 0, 0] ++ bindingsBytes bs),
              lengthField := ([t % 256, r % 256, 0, 0] ++ bindingsBytes bs).length,
              community0 := a % 256, community1 := 0 }, 8) ∧
    SNMP_getPDUHeader (buildCommandMessage a t r bs) =
      some ({ pduType := t % 256, requestID := r % 256,
              errorStatus := 0, errorIndex := 0 }, 12) ∧
    readBindings (buildCommandMessage a t r bs) (bs.length + 1) 12 =
      (bs, .endOfBindings) := by
  have hbuild := buildCommandMessage_eq a t r bs
  set body := [t % 256, r % 256, 0, 0] ++ bindingsBytes bs with hbody
  have hmlen : (buildCommandMessage a t r bs).length = 8 + body.length := by
    rw [hbuild, mkMsg_length]
  have hblen : body.length < 65536 := by omega
  have hfield : body.length % 256 + 256 * (body.length / 256 % 256) =
      body.length := by omega
  refine ⟨?_, ?_, ?_⟩
  · rw [hbuild]
    have hcond : (mkMsg a body).getD 0 0 = 36 ∧ (mkMsg a body).getD 1 0 = 38 ∧
        8 ≤ (mkMsg a body).length := by
      refine ⟨by simp [mkMsg], by simp [mkMsg], by rw [mkMsg_length]; omega⟩
    unfold SNMP_getMessageHeader
    rw [if_pos hcond]
    simp only [mkMsg, List.getD_cons_succ, List.getD_cons_zero]
    simp [hfield]
  · rw [hbuild]
    unfold SNMP_getPDUHeader
    rw [if_pos (by rw [mkMsg_length]; simp [hbody]; omega)]
    simp [mkMsg, hbody]
  · have hlen : (buildCommandMessage a t r bs).getD 4 0 +
        256 * (buildCommandMessage a t r bs).getD 5 0 + 8 =
        (buildCommandMessage a t r bs).length := by
      rw [hbuild]
      simp only [mkMsg, List.getD_cons_succ, List.getD_cons_zero,
        List.length_cons]
      omega
    have hdrop : (buildCommandMessage a t r bs).drop 12 = bindingsBytes bs := by
      rw [hbuild]
      simp [mkMsg, hbody]
    have hend : 12 + (bindingsBytes bs).length =
        (buildCommandMessage a t r bs).length := by
      rw [hmlen]
      simp [hbody]
      omega
    exact readBindings_spec (buildCommandMessage a t r bs) hlen bs 12 hdrop hend hv

/-- Witness for C8: a set command (type byte 83, request id 7, authorization
level 2) with the three concrete sample bindings. -/
theorem commandMessage_roundtrip_witness :
    SNMP_getMessageHeader (buildCommandMessage 2 83 7 sampleBindings) =
      some ({ preamble0 := 36, preamble1 := 38, version := 1,
              checksum := xorAll ([83 % 256, 7 % 256, 0, 0] ++
                bindingsBytes sampleBindings),
              lengthField := ([83 % 256, 7 % 256, 0, 0] ++
                bindingsBytes sampleBindings).length,
              community0 := 2 % 256, community1 := 0 }, 8) ∧
    SNMP_getPDUHeader (buildCommandMessage 2 83 7 sampleBindings) =
      some ({ pduType := 83 % 256, requestID := 7 % 256,
              errorStatus := 0, errorIndex := 0 }, 12) ∧
    readBindings (buildCommandMessage 2 83 7 sampleBindings)
        (sampleBindings.length + 1) 12 =
      (sampleBindings, .endOfBindings) :=
  commandMessage_roundtrip 2 83 7 sampleBindings (by decide) (by decide)

/-! ### Theorems: file-system frame property (C10) -/

theorem runActions_fs_of_no_write :
    ∀ (acts : List SDKAction) (w : SDKWorld),
      (∀ a ∈ acts, isWriteAction a = false) → (runActions w acts).fs = w.fs := by
  intro acts
  induction acts with
  | nil => intro w _; rfl
  | cons a acts ih =>
    intro w h
    have ha := h a (by simp)
    have hrest : ∀ x ∈ acts, isWriteAction x = false :=
      fun x hx => h x (by simp [hx])
    show (runActions (runAction w a) acts).fs = w.fs
    rw [ih (runAction w a) hrest]
    cases a with
    | loadFile n => rfl
    | edit op => rfl
    | writeToFile n => simp [isWriteAction] at ha

/-- C10: a stream loaded from a file is mutated in memory only — any
sequence of session actions containing no write action leaves every file on
disk unchanged; the file system changes only when `writeToFile` is called,
and then exactly at the file name given there, which receives the current
stream contents. -/
theorem stream_mutations_leave_files_unchanged (w : SDKWorld)
    (acts : List SDKAction) (name : String)
    (hnw : ∀ a ∈ acts, isWriteAction a = false) :
    (runActions w acts).fs = w.fs ∧
    (runAction w (.writeToFile name)).fs name = some w.stream.blocks ∧
    (∀ n, n ≠ name → (runAction w (.writeToFile name)).fs n = w.fs n) := by
  refine ⟨runActions_fs_of_no_write acts w hnw, by simp [runAction], ?_⟩
  intro n hn
  simp [runAction, hn]

/-- Witness for C10: the concrete session (load, crop, insert, filter) on
the concrete one-file file system, with write target "output.sbf". -/
theorem stream_mutations_leave_files_unchanged_witness :
    (runActions sampleWorld sampleActions).fs = sampleWorld.fs ∧
    (runAction sampleWorld (.writeToFile "output.sbf")).fs "output.sbf" =
      some sampleWorld.stream.blocks ∧
    (∀ n, n ≠ "output.sbf" →
      (runAction sampleWorld (.writeToFile "output.sbf")).fs n =
        sampleWorld.fs n) :=
  stream_mutations_leave_files_unchanged sampleWorld sampleActions
    "output.sbf" (by decide)
